import Mathlib

/-!
Verification development for the Vendek repository: a shallow embedding of
the procedural world generator (src/world.rs), the spatial grid builder
(src/world.rs), and the GPU pipeline orchestration layer (src/gpu.rs,
src/app.rs), with theorems settling the specification's claims.

Conventions: Rust f32 values are embedded as rationals, faithful at the
formula level; u32/u64/usize values are embedded as Nat (the quantities
involved — surface dimensions, counts, indices — are bounded far below
2^32 by surface validation and construction, so wrap-around is unreachable
in the modelled states).  Fallible operations (the rand crate's panic on an
empty integer range) are embedded with Option.
-/

/-- Rational 3-vector, embedding glam's Vec3 (f32 components). -/
structure Vec3 where
  x : ℚ
  y : ℚ
  z : ℚ
deriving DecidableEq, Repr

/-- Rational 4-vector, embedding glam's Vec4 (f32 components). -/
structure Vec4 where
  x : ℚ
  y : ℚ
  z : ℚ
  w : ℚ
deriving DecidableEq, Repr

/-- Embedding of world.rs VendekPhase (the `_pad` field carries no data and
is omitted). -/
structure VendekPhase where
  color_density : Vec4
  scattering : Vec4
  membrane_params : Vec4
  phase_id : ℕ
deriving DecidableEq, Repr

/-- Embedding of world.rs HoneycombCell. -/
structure HoneycombCell where
  position : Vec3
  phase_index : ℕ
deriving DecidableEq, Repr

/-!
Model of the external pseudorandom stream.  The source uses the external
rand/rand_chacha crates: `ChaCha8Rng::seed_from_u64(seed)` yields a
deterministic stream that is a pure function of the seed, and successive
`gen_range` calls consume that stream in program order.  The claims depend
only on the rand API contract — seed-determinism, `gen_range(lo..hi)`
returning a value in `[lo, hi)`, and a panic when an integer range is
empty — not on the ChaCha8 block function itself, so the stream is
modelled by a concrete splitmix-style generator: a 64-bit state advanced
by a fixed odd constant, with a mixing output function.
-/

/-- One step of the modelled 64-bit pseudorandom stream: returns the output
word and the advanced state.  Deterministic function of the state alone. -/
def rngNext (s : ℕ) : ℕ × ℕ :=
  let s' := (s + 0x9E3779B97F4A7C15) % 2 ^ 64
  let z1 := ((s' ^^^ (s' >>> 30)) * 0xBF58476D1CE4E5B9) % 2 ^ 64
  let z2 := ((z1 ^^^ (z1 >>> 27)) * 0x94D049BB133111EB) % 2 ^ 64
  (z2 ^^^ (z2 >>> 31), s')

/-- The stream state obtained from a 64-bit seed (models
`ChaCha8Rng::seed_from_u64`). -/
def rngOfSeed (seed : ℕ) : ℕ := seed % 2 ^ 64

/-- Model of `rng.gen_range(lo..hi)` on floats: draws the next stream word
and maps its low 24 bits affinely into `[lo, hi)`.  The source only calls
this with constant non-empty ranges. -/
def genRangeQ (st : ℕ) (lo hi : ℚ) : ℚ × ℕ :=
  let (z, st') := rngNext st
  (lo + (hi - lo) * (((z % 2 ^ 24 : ℕ) : ℚ) / 2 ^ 24), st')

/-- Model of `rng.gen_range(lo..hi)` on unsigned integers: returns `none`
when the range is empty (the rand crate panics on an empty range),
otherwise a value in `[lo, hi)` together with the advanced state. -/
def genRangeNat (st : ℕ) (lo hi : ℕ) : Option (ℕ × ℕ) :=
  if lo < hi then
    let (z, st') := rngNext st
    some (lo + z % (hi - lo), st')
  else
    none

/-- Embedding of world.rs `hsv_to_rgb`.  Rust's `%` on i32 is truncated
remainder, embedded as `Int.tmod`. -/
def hsv_to_rgb (h s v : ℚ) : ℚ × ℚ × ℚ :=
  let i : ℤ := ⌊h * 6⌋
  let f : ℚ := h * 6 - (i : ℚ)
  let p := v * (1 - s)
  let q := v * (1 - f * s)
  let t := v * (1 - (1 - f) * s)
  let m := Int.tmod i 6
  if m = 0 then (v, t, p)
  else if m = 1 then (q, v, p)
  else if m = 2 then (p, v, t)
  else if m = 3 then (p, q, v)
  else if m = 4 then (t, p, v)
  else (v, p, q)

/-- One phase of `HoneycombWorld::generate`: the body of the phases `map`
closure at index `i`, drawing density, scattering and membrane parameters
from the stream in source order. -/
def genPhase (phaseCount i : ℕ) (st : ℕ) : VendekPhase × ℕ :=
  let hue : ℚ := (i : ℚ) / (phaseCount : ℚ)
  let rgb := hsv_to_rgb hue (7/10) (9/10)
  let (d, st1) := genRangeQ st (2/100) (8/100)
  let (sx, st2) := genRangeQ st1 (1/10) 1
  let (sy, st3) := genRangeQ st2 (1/10) 1
  let (sz, st4) := genRangeQ st3 (1/10) 1
  let (sw, st5) := genRangeQ st4 (5/10) 2
  let (mf, st6) := genRangeQ st5 (5/10) 5
  let (ma, st7) := genRangeQ st6 (1/100) (1/10)
  let (md, st8) := genRangeQ st7 (1/10) (5/10)
  let (mc, st9) := genRangeQ st8 (1/10) 1
  (⟨⟨rgb.1, rgb.2.1, rgb.2.2, d⟩, ⟨sx, sy, sz, sw⟩, ⟨mf, ma, md, mc⟩, i⟩, st9)

/-- The phases `map` of `HoneycombWorld::generate`, iterated over indices
`i, i+1, …, i+n-1` threading the stream state. -/
def genPhasesAux (phaseCount : ℕ) : ℕ → ℕ → ℕ → List VendekPhase × ℕ
  | _, 0, st => ([], st)
  | i, n + 1, st =>
    let (ph, st1) := genPhase phaseCount i st
    let (rest, st2) := genPhasesAux phaseCount (i + 1) n st1
    (ph :: rest, st2)

/-- One cell of `HoneycombWorld::generate`: three coordinate draws from
`[-10, 10)` then a phase-index draw from `0..phase_count` (which fails for
`phase_count = 0`). -/
def genCell (phaseCount : ℕ) (st : ℕ) : Option (HoneycombCell × ℕ) :=
  let (px, st1) := genRangeQ st (-10) 10
  let (py, st2) := genRangeQ st1 (-10) 10
  let (pz, st3) := genRangeQ st2 (-10) 10
  (genRangeNat st3 0 phaseCount).map fun pr => (⟨⟨px, py, pz⟩, pr.1⟩, pr.2)

/-- The cells `map` of `HoneycombWorld::generate`, drawing `n` cells. -/
def genCellsAux (phaseCount : ℕ) : ℕ → ℕ → Option (List HoneycombCell × ℕ)
  | 0, st => some ([], st)
  | n + 1, st =>
    (genCell phaseCount st).bind fun cst =>
      (genCellsAux phaseCount n cst.2).map fun rst => (cst.1 :: rst.1, rst.2)

/-- Embedding of world.rs HoneycombWorld. -/
structure HoneycombWorld where
  phases : List VendekPhase
  cells : List HoneycombCell
deriving DecidableEq, Repr

/-- Embedding of `HoneycombWorld::generate`: seeds the stream from `seed`,
draws the phases first (indices `0..phase_count`), then the cells
(indices `0..cell_count`), threading one stream state throughout.
Returns `none` exactly when a cell's phase-index draw hits an empty range
(`phase_count = 0` with at least one cell), where the source panics. -/
def HoneycombWorld.generate (seed cellCount phaseCount : ℕ) : Option HoneycombWorld :=
  let st0 := rngOfSeed seed
  let (phases, st1) := genPhasesAux phaseCount 0 phaseCount st0
  (genCellsAux phaseCount cellCount st1).map fun cst => ⟨phases, cst.1⟩

/-- Embedding of world.rs GridCell: a fixed-capacity (8) slot list of
Voronoi cell indices plus a count (`-1` marks an empty slot; the `_pad`
field carries no data and is omitted). -/
structure GridCell where
  cell_indices : List ℤ
  count : ℕ
deriving DecidableEq, Repr

/-- The initial grid cell: eight empty (-1) slots, count 0. -/
def GridCell.empty : GridCell := ⟨List.replicate 8 (-1), 0⟩

/-- The guarded insertion at the heart of `SpatialGrid::build`: writes the
index into slot `count` and increments `count` only while `count < 8`;
once a voxel holds 8 references, further insertions are dropped. -/
def GridCell.insert (gc : GridCell) (voronoiIdx : ℤ) : GridCell :=
  if gc.count < 8 then ⟨gc.cell_indices.set gc.count voronoiIdx, gc.count + 1⟩
  else gc

/-- Embedding of world.rs SpatialGrid. -/
structure SpatialGrid where
  cells : List GridCell
  grid_size : ℕ
deriving DecidableEq, Repr

/-- `(v as i32).clamp(0, grid_size as i32 - 1) as u32` from the source:
clamp an integer voxel coordinate into `[0, grid_size - 1]`.  (The Rust
saturating f32→i32 cast composed with this clamp equals the clamp alone
for any grid size below 2^31.) -/
def clampToGrid (v : ℤ) (gridSize : ℕ) : ℕ :=
  (min (max v 0) ((gridSize : ℤ) - 1)).toNat

/-- The 3×3×3 neighborhood offsets, in the source's loop order
(`dz` outer, then `dy`, then `dx`). -/
def neighborOffsets : List (ℤ × ℤ × ℤ) :=
  ([-1, 0, 1] : List ℤ).flatMap fun dz =>
    ([-1, 0, 1] : List ℤ).flatMap fun dy =>
      ([-1, 0, 1] : List ℤ).map fun dx => (dz, dy, dx)

/-- The body of `SpatialGrid::build`'s per-seed loop: computes the clamped
containing voxel of `pos` and registers `voronoiIdx` into every in-bounds
voxel of its 3×3×3 neighborhood. -/
def insertSeed (grid : List GridCell) (gridSize : ℕ) (voronoiIdx : ℤ)
    (pos volumeMin cellSize : Vec3) : List GridCell :=
  let gx := clampToGrid ⌊(pos.x - volumeMin.x) / cellSize.x⌋ gridSize
  let gy := clampToGrid ⌊(pos.y - volumeMin.y) / cellSize.y⌋ gridSize
  let gz := clampToGrid ⌊(pos.z - volumeMin.z) / cellSize.z⌋ gridSize
  neighborOffsets.foldl
    (fun g off =>
      let nx := (gx : ℤ) + off.2.2
      let ny := (gy : ℤ) + off.2.1
      let nz := (gz : ℤ) + off.1
      if 0 ≤ nx ∧ nx < (gridSize : ℤ) ∧ 0 ≤ ny ∧ ny < (gridSize : ℤ) ∧
          0 ≤ nz ∧ nz < (gridSize : ℤ) then
        let idx := nz.toNat * gridSize * gridSize + ny.toNat * gridSize + nx.toNat
        g.set idx ((g.getD idx GridCell.empty).insert voronoiIdx)
      else g)
    grid

/-- Embedding of `SpatialGrid::build`: a dense `grid_size³` array of empty
voxels, then each Voronoi seed (in input order, with its index) is
registered into its clamped voxel's 3×3×3 neighborhood. -/
def SpatialGrid.build (voronoiCells : List HoneycombCell)
    (volumeMin volumeMax : Vec3) (gridSize : ℕ) : SpatialGrid :=
  let cellSize : Vec3 := ⟨(volumeMax.x - volumeMin.x) / (gridSize : ℚ),
    (volumeMax.y - volumeMin.y) / (gridSize : ℚ),
    (volumeMax.z - volumeMin.z) / (gridSize : ℚ)⟩
  let totalCells := gridSize * gridSize * gridSize
  let initial := List.replicate totalCells GridCell.empty
  let final := (voronoiCells.enum).foldl
    (fun g pr => insertSeed g gridSize (pr.1 : ℤ) pr.2.position volumeMin cellSize)
    initial
  ⟨final, gridSize⟩

/-!
GPU pipeline orchestration layer (src/gpu.rs, src/app.rs).  Device-side
objects are modelled by the host-visible data that identifies them: the
storage texture by its pixel dimensions, bind groups by the resources they
reference, pipelines / layouts / buffers by opaque identity tokens carried
unchanged unless the source recreates them, and buffer contents by the
records last written into them.  The camera is an external collaborator
(src/camera.rs uses transcendental f32 math) and is modelled as a black
box exposing a view matrix, an aspect-dependent projection matrix, a
world-space position and near/far planes, exactly the interface render
consumes.  4×4 matrices are rational matrices; the glam inverse is
embedded as the exact adjugate-based inverse.
-/

/-- Embedding of glam's Mat4 over the rationals. -/
abbrev Mat4 := Matrix (Fin 4) (Fin 4) ℚ

/-- Embedding of glam's `Mat4::inverse` (exact rational inverse via the
adjugate; glam computes the same cofactor expansion in f32). -/
def mat4Inverse (m : Mat4) : Mat4 := m.det⁻¹ • m.adjugate

/-- Embedding of world.rs FrameUniforms. -/
structure FrameUniforms where
  view_proj : Mat4
  inv_view_proj : Mat4
  camera_position : Vec3
  time : ℚ
  resolution : ℚ × ℚ
  near : ℚ
  far : ℚ

/-- Embedding of world.rs RaymarchParams (pad fields carry no data and are
omitted; `enable_coupling` is the 1.0/0.0 float encoding). -/
structure RaymarchParams where
  volume_min : Vec3
  volume_max : Vec3
  max_steps : ℕ
  step_size : ℚ
  membrane_thickness : ℚ
  membrane_glow : ℚ
  density_multiplier : ℚ
  enable_coupling : ℚ
  palette : ℕ
deriving DecidableEq, Repr

/-- gpu.rs `VOLUME_MIN`. -/
def VOLUME_MIN : Vec3 := ⟨-12, -12, -12⟩

/-- gpu.rs `VOLUME_MAX`. -/
def VOLUME_MAX : Vec3 := ⟨12, 12, 12⟩

/-- gpu.rs `MAX_STEPS`. -/
def MAX_STEPS : ℕ := 128

/-- gpu.rs `STEP_SIZE` (0.15). -/
def STEP_SIZE : ℚ := 15/100

/-- gpu.rs `MEMBRANE_THICKNESS` (0.4). -/
def MEMBRANE_THICKNESS : ℚ := 4/10

/-- gpu.rs `MEMBRANE_GLOW` (0.5). -/
def MEMBRANE_GLOW : ℚ := 5/10

/-- Embedding of gpu.rs RuntimeParams. -/
structure RuntimeParams where
  membrane_thickness : ℚ
  membrane_glow : ℚ
  step_size : ℚ
  density : ℚ
  max_steps : ℕ
  enable_coupling : Bool
  palette : ℕ
deriving DecidableEq, Repr

/-- `RuntimeParams::default` from gpu.rs. -/
def RuntimeParams.default : RuntimeParams :=
  ⟨MEMBRANE_THICKNESS, MEMBRANE_GLOW, STEP_SIZE, 1, MAX_STEPS, true, 0⟩

/-- `read_js_params` in the non-wasm build: always the defaults. -/
def read_js_params : RuntimeParams := RuntimeParams.default

/-- The camera collaborator's interface as consumed by `GpuState::render`:
a view matrix, an aspect-dependent projection matrix, a world-space
position, and near/far planes (src/camera.rs, external black box). -/
structure Camera where
  view_matrix : Mat4
  projection_matrix : ℚ → Mat4
  position : Vec3
  near : ℚ
  far : ℚ

/-- The intermediate storage texture, identified by the dimensions it was
created with (`GpuState::create_storage_texture`). -/
structure StorageTexture where
  width : ℕ
  height : ℕ
deriving DecidableEq, Repr

/-- A sampler; gpu.rs creates exactly one (clamp-to-edge, linear) at
construction and reuses it forever, so it is carried as a token. -/
structure Sampler where
  id : ℕ
deriving DecidableEq, Repr

/-- The compute-write bind group (group 1): references the storage texture
view it was created against. -/
structure ComputeBindGroup1 where
  texture : StorageTexture
deriving DecidableEq, Repr

/-- The display-read bind group: references the sampling view of the
storage texture and the sampler. -/
structure RenderBindGroup where
  texture : StorageTexture
  sampler : Sampler
deriving DecidableEq, Repr

/-- The surface configuration (width, height, and the negotiated format
carried as a token). -/
structure SurfaceConfig where
  width : ℕ
  height : ℕ
  format : ℕ
deriving DecidableEq, Repr

/-- Embedding of gpu.rs GpuState: the host-visible state of the GPU
resource manager.  Size-independent device objects (pipelines, the
group-0 bind group over the four buffers, the bind-group layouts, the
sampler, the buffer objects) are identity tokens; the two per-frame
uniform buffers additionally carry the record contents last written. -/
structure GpuState where
  config : SurfaceConfig
  sizeWidth : ℕ
  sizeHeight : ℕ
  compute_pipeline : ℕ
  compute_bind_group_0 : ℕ
  compute_bind_group_1 : ComputeBindGroup1
  compute_bind_group_layout_1 : ℕ
  render_pipeline : ℕ
  render_bind_group : RenderBindGroup
  render_bind_group_layout : ℕ
  frame_uniform_buffer : ℕ
  frame_uniform_contents : FrameUniforms
  raymarch_params_buffer : ℕ
  raymarch_params_contents : RaymarchParams
  phases_buffer_contents : List VendekPhase
  cells_buffer_contents : List HoneycombCell
  storage_texture : StorageTexture
  sampler : Sampler

/-- `GpuState::create_storage_texture`: a fresh Rgba16Float 2D texture at
the given dimensions. -/
def create_storage_texture (width height : ℕ) : StorageTexture := ⟨width, height⟩

/-- Embedding of `GpuState::resize` (non-wasm path): a no-op unless both
dimensions are positive; otherwise updates `size`, reconfigures the
surface at the new dimensions, recreates the storage texture, and
recreates the two bind groups that reference it (compute group 1 against
the new storage view, the render bind group against the new sampling view
and the existing sampler).  Everything else is untouched. -/
def GpuState.resize (st : GpuState) (newWidth newHeight : ℕ) : GpuState :=
  if 0 < newWidth ∧ 0 < newHeight then
    let tex := create_storage_texture newWidth newHeight
    { st with
      sizeWidth := newWidth
      sizeHeight := newHeight
      config := ⟨newWidth, newHeight, st.config.format⟩
      storage_texture := tex
      compute_bind_group_1 := ⟨tex⟩
      render_bind_group := ⟨tex, st.sampler⟩ }
  else st

/-- Embedding of wgpu's SurfaceError (the outcome of
`surface.get_current_texture()`). -/
inductive SurfaceError where
  | timeout
  | outdated
  | lost
  | outOfMemory
  | other
deriving DecidableEq, Repr

/-- The observable per-frame effects recorded by one `render` call: the
compute dispatch (workgroup counts) if one was encoded, the draw call's
vertex count, and whether work was submitted and the image presented. -/
structure FrameTrace where
  dispatch : Option (ℕ × ℕ × ℕ)
  drawVertexCount : Option ℕ
  submitted : Bool
  presented : Bool
deriving DecidableEq, Repr

/-- The FrameUniforms record `render` computes and writes: view-projection
`proj(aspect) * view` and its inverse, camera position, elapsed time,
current surface resolution, camera near/far. -/
def mkFrameUniforms (st : GpuState) (camera : Camera) (time : ℚ) : FrameUniforms :=
  let aspect : ℚ := (st.sizeWidth : ℚ) / (st.sizeHeight : ℚ)
  let viewProj := camera.projection_matrix aspect * camera.view_matrix
  { view_proj := viewProj
    inv_view_proj := mat4Inverse viewProj
    camera_position := camera.position
    time := time
    resolution := ((st.sizeWidth : ℚ), (st.sizeHeight : ℚ))
    near := camera.near
    far := camera.far }

/-- The RaymarchParams record `render` computes and writes: the fixed
volume bounding box together with the runtime tunables. -/
def mkRaymarchParams (rp : RuntimeParams) : RaymarchParams :=
  { volume_min := VOLUME_MIN
    volume_max := VOLUME_MAX
    max_steps := rp.max_steps
    step_size := rp.step_size
    membrane_thickness := rp.membrane_thickness
    membrane_glow := rp.membrane_glow
    density_multiplier := rp.density
    enable_coupling := if rp.enable_coupling then 1 else 0
    palette := rp.palette }

/-- Embedding of `GpuState::render`.  The acquisition outcome of
`surface.get_current_texture()` is the single external input `acquire`.
In source order: write the FrameUniforms buffer, write the RaymarchParams
buffer, acquire the surface image (early return of the error on failure,
before any encoder or pass exists), then encode the compute pass with a
`ceil(width/8) × ceil(height/8) × 1` dispatch, encode the display pass
with a single 3-vertex draw, submit, and present.  Returns the post
state, the error returned (if any), and the frame's effect trace. -/
def GpuState.render (st : GpuState) (camera : Camera) (time : ℚ)
    (acquire : Except SurfaceError Unit) :
    GpuState × Option SurfaceError × FrameTrace :=
  let st1 := { st with frame_uniform_contents := mkFrameUniforms st camera time }
  let st2 := { st1 with raymarch_params_contents := mkRaymarchParams read_js_params }
  match acquire with
  | .error e => (st2, some e, ⟨none, none, false, false⟩)
  | .ok _ =>
    let workgroupsX := (st2.sizeWidth + 7) / 8
    let workgroupsY := (st2.sizeHeight + 7) / 8
    (st2, none, ⟨some (workgroupsX, workgroupsY, 1), some 3, true, true⟩)

/-- The outcome the frame-pipeline boundary (app.rs `window_event`,
RedrawRequested arm) chooses for a render result. -/
inductive FrameOutcome where
  | completed
  | reconfigured
  | terminated
  | skipped
deriving DecidableEq, Repr

/-- Embedding of the app.rs RedrawRequested handler's match on
`state.gpu.render(..)`: `Ok` — nothing; `Err(Lost)` — resize with the
current dimensions; `Err(OutOfMemory)` — log and exit the event loop;
any other error — log and continue.  Returns the app's GpuState after the
handler and the chosen outcome. -/
def handleRender (st : GpuState) (camera : Camera) (time : ℚ)
    (acquire : Except SurfaceError Unit) : GpuState × FrameOutcome :=
  let (st', err, _) := st.render camera time acquire
  match err with
  | none => (st', .completed)
  | some .lost => (st'.resize st'.sizeWidth st'.sizeHeight, .reconfigured)
  | some .outOfMemory => (st', .terminated)
  | some _ => (st', .skipped)

/-- A placeholder phase record (used only as a `getD` default in concrete
instantiations). -/
def defaultPhase : VendekPhase := ⟨⟨0, 0, 0, 0⟩, ⟨0, 0, 0, 0⟩, ⟨0, 0, 0, 0⟩, 0⟩

/-- A placeholder cell record (used only as a `getD` default in concrete
instantiations). -/
def defaultCell : HoneycombCell := ⟨⟨0, 0, 0⟩, 0⟩

/-- Nine Voronoi seeds at one point: a dense cluster mapping into a single
voxel, exceeding the capacity-8 slot list. -/
def nineCells : List HoneycombCell := List.replicate 9 ⟨⟨-12, -12, -12⟩, 0⟩

/-- A concrete camera (identity matrices; the concrete values are
irrelevant to the orchestration-layer claims). -/
def cam0 : Camera := ⟨1, fun _ => 1, ⟨0, 0, 0⟩, 1/10, 100⟩

/-- A concrete GPU state for a 1280×720 surface, with the construction-time
uniform contents (identity matrices, time 0, near 0.1, far 100, default
raymarch parameters). -/
def gpuState0 : GpuState where
  config := ⟨1280, 720, 0⟩
  sizeWidth := 1280
  sizeHeight := 720
  compute_pipeline := 0
  compute_bind_group_0 := 0
  compute_bind_group_1 := ⟨⟨1280, 720⟩⟩
  compute_bind_group_layout_1 := 0
  render_pipeline := 0
  render_bind_group := ⟨⟨1280, 720⟩, ⟨0⟩⟩
  render_bind_group_layout := 0
  frame_uniform_buffer := 0
  frame_uniform_contents :=
    { view_proj := 1, inv_view_proj := 1, camera_position := ⟨0, 0, 0⟩, time := 0,
      resolution := (1280, 720), near := 1/10, far := 100 }
  raymarch_params_buffer := 0
  raymarch_params_contents := mkRaymarchParams RuntimeParams.default
  phases_buffer_contents := []
  cells_buffer_contents := []
  storage_texture := ⟨1280, 720⟩
  sampler := ⟨0⟩

/-!
Helper lemmas about the generator's stream draws.
-/

/-- The RGB components of a phase, as a triple. -/
def rgbOf (ph : VendekPhase) : ℚ × ℚ × ℚ :=
  (ph.color_density.x, ph.color_density.y, ph.color_density.z)

theorem genRangeQ_fst (st : ℕ) (lo hi : ℚ) :
    (genRangeQ st lo hi).1 = lo + (hi - lo) * (((rngNext st).1 % 2 ^ 24 : ℕ) : ℚ) / 2 ^ 24 := by
  rw [genRangeQ, mul_div_assoc]

theorem genRangeNat_eq (st lo hi : ℕ) :
    genRangeNat st lo hi =
      if lo < hi then some (lo + (rngNext st).1 % (hi - lo), (rngNext st).2) else none := rfl

theorem genRangeQ_mem (st : ℕ) (lo hi : ℚ) (h : lo < hi) :
    lo ≤ (genRangeQ st lo hi).1 ∧ (genRangeQ st lo hi).1 < hi := by
  rw [genRangeQ_fst, mul_div_assoc]
  set n : ℕ := (rngNext st).1 % 2 ^ 24 with hn
  have hnn : (0 : ℚ) ≤ (n : ℚ) / 2 ^ 24 := by positivity
  have hlt : ((n : ℚ) / 2 ^ 24) < 1 := by
    rw [div_lt_one (by positivity)]
    exact_mod_cast Nat.mod_lt _ (by positivity)
  constructor
  · nlinarith
  · nlinarith

theorem genRangeNat_some (st lo hi : ℕ) (h : lo < hi) :
    ∃ v st', genRangeNat st lo hi = some (v, st') ∧ lo ≤ v ∧ v < hi := by
  refine ⟨lo + (rngNext st).1 % (hi - lo), (rngNext st).2, ?_, Nat.le_add_right lo _, ?_⟩
  · simp [genRangeNat_eq, h]
  · have := Nat.mod_lt (rngNext st).1 (y := hi - lo) (by omega)
    omega

theorem genRangeNat_lt (st lo hi v st' : ℕ)
    (h : genRangeNat st lo hi = some (v, st')) : lo ≤ v ∧ v < hi := by
  by_cases hlt : lo < hi
  · rw [genRangeNat_eq, if_pos hlt] at h
    have h2 := Nat.mod_lt (rngNext st).1 (y := hi - lo) (by omega)
    have h3 : v = lo + (rngNext st).1 % (hi - lo) := by
      have := congrArg (fun o => (Option.getD o (0, 0)).1) h
      simpa using this.symm
    omega
  · rw [genRangeNat_eq, if_neg hlt] at h
    exact absurd h (by simp)

theorem genPhase_phase_id (pc i st : ℕ) : (genPhase pc i st).1.phase_id = i := rfl

theorem genPhase_rgb (pc i st : ℕ) :
    rgbOf (genPhase pc i st).1 = hsv_to_rgb ((i : ℚ) / (pc : ℚ)) (7/10) (9/10) := rfl

theorem genPhasesAux_map_phase_id (pc : ℕ) :
    ∀ n i st, (genPhasesAux pc i n st).1.map VendekPhase.phase_id = List.range' i n := by
  intro n
  induction n with
  | zero => intro i st; simp [genPhasesAux]
  | succ m ih =>
    intro i st
    simp only [genPhasesAux, List.map_cons, List.range'_succ, genPhase_phase_id]
    exact congrArg _ (ih (i + 1) _)

theorem genPhasesAux_map_rgb (pc : ℕ) :
    ∀ n i st, (genPhasesAux pc i n st).1.map rgbOf =
      (List.range' i n).map (fun k : ℕ => hsv_to_rgb ((k : ℚ) / (pc : ℚ)) (7/10) (9/10)) := by
  intro n
  induction n with
  | zero => intro i st; simp [genPhasesAux]
  | succ m ih =>
    intro i st
    simp only [genPhasesAux, List.map_cons, List.range'_succ, genPhase_rgb]
    exact congrArg _ (ih (i + 1) _)

theorem genPhasesAux_length (pc n i st : ℕ) : (genPhasesAux pc i n st).1.length = n := by
  have := congrArg List.length (genPhasesAux_map_phase_id pc n i st)
  simpa using this

theorem genCell_eq (pc st : ℕ) :
    genCell pc st =
      (genRangeNat ((genRangeQ ((genRangeQ ((genRangeQ st (-10) 10).2) (-10) 10).2)
          (-10) 10).2) 0 pc).map fun pr =>
        (⟨⟨(genRangeQ st (-10) 10).1,
           (genRangeQ ((genRangeQ st (-10) 10).2) (-10) 10).1,
           (genRangeQ ((genRangeQ ((genRangeQ st (-10) 10).2) (-10) 10).2) (-10) 10).1⟩,
          pr.1⟩, pr.2) := rfl

/-- Every cell drawn by `genCell` has a valid phase index and all its
position coordinates in `[-10, 10)`. -/
theorem genCell_mem (pc st : ℕ) (c : HoneycombCell) (st' : ℕ)
    (h : genCell pc st = some (c, st')) :
    c.phase_index < pc ∧
      (-10 ≤ c.position.x ∧ c.position.x < 10) ∧
      (-10 ≤ c.position.y ∧ c.position.y < 10) ∧
      (-10 ≤ c.position.z ∧ c.position.z < 10) := by
  rw [genCell_eq, Option.map_eq_some'] at h
  obtain ⟨pr, hpr, hc⟩ := h
  have hc1 : c = ⟨⟨(genRangeQ st (-10) 10).1,
      (genRangeQ ((genRangeQ st (-10) 10).2) (-10) 10).1,
      (genRangeQ ((genRangeQ ((genRangeQ st (-10) 10).2) (-10) 10).2) (-10) 10).1⟩,
      pr.1⟩ := by
    have := congrArg Prod.fst hc
    simpa using this.symm
  have hpr' : genRangeNat ((genRangeQ ((genRangeQ ((genRangeQ st (-10) 10).2) (-10) 10).2)
      (-10) 10).2) 0 pc = some (pr.1, pr.2) := by
    rw [hpr]
  have hidx := genRangeNat_lt _ _ _ _ _ hpr'
  subst hc1
  exact ⟨hidx.2, genRangeQ_mem _ (-10) 10 (by norm_num),
    genRangeQ_mem _ (-10) 10 (by norm_num), genRangeQ_mem _ (-10) 10 (by norm_num)⟩

theorem genCellsAux_mem (pc : ℕ) :
    ∀ n st l st', genCellsAux pc n st = some (l, st') → ∀ cell ∈ l,
      cell.phase_index < pc ∧
      (-10 ≤ cell.position.x ∧ cell.position.x < 10) ∧
      (-10 ≤ cell.position.y ∧ cell.position.y < 10) ∧
      (-10 ≤ cell.position.z ∧ cell.position.z < 10) := by
  intro n
  induction n with
  | zero =>
    intro st l st' h cell hc
    simp only [genCellsAux, Option.some.injEq, Prod.mk.injEq] at h
    rw [← h.1] at hc
    simp at hc
  | succ m ih =>
    intro st l st' h cell hc
    simp only [genCellsAux, Option.bind_eq_some, Option.map_eq_some'] at h
    obtain ⟨cst, hg, rst, hr, hcons⟩ := h
    have hl : l = cst.1 :: rst.1 := by
      have := congrArg Prod.fst hcons
      simpa using this.symm
    rw [hl] at hc
    rcases List.mem_cons.mp hc with hc | hc
    · subst hc
      exact genCell_mem pc st _ _ (by rw [hg])
    · exact ih _ _ _ (by rw [hr]) cell hc

theorem genCellsAux_length (pc : ℕ) :
    ∀ n st l st', genCellsAux pc n st = some (l, st') → l.length = n := by
  intro n
  induction n with
  | zero =>
    intro st l st' h
    simp only [genCellsAux, Option.some.injEq, Prod.mk.injEq] at h
    simp [← h.1]
  | succ m ih =>
    intro st l st' h
    simp only [genCellsAux, Option.bind_eq_some, Option.map_eq_some'] at h
    obtain ⟨cst, hg, rst, hr, hcons⟩ := h
    have hl : l = cst.1 :: rst.1 := by
      have := congrArg Prod.fst hcons
      simpa using this.symm
    rw [hl]
    simp [ih _ _ _ (by rw [hr])]

theorem genCellsAux_isSome (pc : ℕ) (hpc : 0 < pc) :
    ∀ n st, (genCellsAux pc n st).isSome = true := by
  intro n
  induction n with
  | zero => intro st; simp [genCellsAux]
  | succ m ih =>
    intro st
    simp only [genCellsAux]
    rw [genCell_eq, genRangeNat_eq, if_pos hpc]
    simp only [Option.map_some', Option.some_bind]
    have h2 := ih ((rngNext ((genRangeQ ((genRangeQ ((genRangeQ st (-10) 10).2)
      (-10) 10).2) (-10) 10).2)).2)
    cases hr : genCellsAux pc m ((rngNext ((genRangeQ ((genRangeQ ((genRangeQ st (-10) 10).2)
        (-10) 10).2) (-10) 10).2)).2) with
    | none => rw [hr] at h2; simp at h2
    | some rs => simp

/-- Drawing fewer cells from the same stream state yields a prefix of the
longer draw: the cell at index `i` depends only on the seed and `i`. -/
theorem genCellsAux_take (pc : ℕ) :
    ∀ n₁ n₂ st l₁ st₁ l₂ st₂, n₁ ≤ n₂ →
      genCellsAux pc n₁ st = some (l₁, st₁) →
      genCellsAux pc n₂ st = some (l₂, st₂) → l₁ = l₂.take n₁ := by
  intro n₁
  induction n₁ with
  | zero =>
    intro n₂ st l₁ st₁ l₂ st₂ _ h₁ _
    simp only [genCellsAux, Option.some.injEq, Prod.mk.injEq] at h₁
    simp [← h₁.1]
  | succ m ih =>
    intro n₂ st l₁ st₁ l₂ st₂ hle h₁ h₂
    cases n₂ with
    | zero => omega
    | succ k =>
      simp only [genCellsAux, Option.bind_eq_some, Option.map_eq_some'] at h₁ h₂
      obtain ⟨cst, hg, rst, hr, hcons⟩ := h₁
      obtain ⟨cst', hg', rst', hr', hcons'⟩ := h₂
      rw [hg] at hg'
      have hcc : cst = cst' := by simpa using hg'
      subst hcc
      have hl₁ : l₁ = cst.1 :: rst.1 := by
        have := congrArg Prod.fst hcons
        simpa using this.symm
      have hl₂ : l₂ = cst.1 :: rst'.1 := by
        have := congrArg Prod.fst hcons'
        simpa using this.symm
      subst hl₁; subst hl₂
      rw [List.take_succ_cons]
      exact congrArg _ (ih k _ _ _ _ _ (by omega) (by rw [hr]) (by rw [hr']))

/-- The defining equation of `generate`: phases drawn first from the seeded
stream, then cells from the state the phase draws left behind. -/
theorem generate_eq (s c p : ℕ) :
    HoneycombWorld.generate s c p =
      (genCellsAux p c (genPhasesAux p 0 p (rngOfSeed s)).2).map
        fun cst => ⟨(genPhasesAux p 0 p (rngOfSeed s)).1, cst.1⟩ := rfl

theorem generate_phases (s c p : ℕ) (w : HoneycombWorld)
    (h : HoneycombWorld.generate s c p = some w) :
    w.phases = (genPhasesAux p 0 p (rngOfSeed s)).1 := by
  rw [generate_eq, Option.map_eq_some'] at h
  obtain ⟨cst, -, hw⟩ := h
  rw [← hw]

theorem generate_cells (s c p : ℕ) (w : HoneycombWorld)
    (h : HoneycombWorld.generate s c p = some w) :
    ∃ st', genCellsAux p c (genPhasesAux p 0 p (rngOfSeed s)).2 = some (w.cells, st') := by
  rw [generate_eq, Option.map_eq_some'] at h
  obtain ⟨cst, hc, hw⟩ := h
  exact ⟨cst.2, by rw [hc, ← hw]⟩

/-!
Helper lemmas for the spatial grid's capacity invariant.
-/

theorem GridCell.insert_count_le (gc : GridCell) (v : ℤ) (h : gc.count ≤ 8) :
    (gc.insert v).count ≤ 8 := by
  unfold GridCell.insert
  split
  · next hlt => simp only [GridCell.count]; omega
  · exact h

theorem foldl_preserves {α : Type u} {β : Type v} (P : α → Prop) (f : α → β → α)
    (hf : ∀ a b, P a → P (f a b)) : ∀ (l : List β) (a : α), P a → P (l.foldl f a) := by
  intro l
  induction l with
  | nil => intro a ha; exact ha
  | cons x xs ih => intro a ha; exact ih _ (hf a x ha)

theorem getD_count_le (g : List GridCell) (idx : ℕ) (h : ∀ gc ∈ g, gc.count ≤ 8) :
    (g.getD idx GridCell.empty).count ≤ 8 := by
  by_cases hlen : idx < g.length
  · rw [List.getD_eq_getElem g _ hlen]
    exact h _ (List.getElem_mem hlen)
  · rw [List.getD_eq_default g _ (by omega)]
    simp [GridCell.empty]

theorem insertSeed_count_le (grid : List GridCell) (gridSize : ℕ) (voronoiIdx : ℤ)
    (pos vmin cellSize : Vec3) (h : ∀ gc ∈ grid, gc.count ≤ 8) :
    ∀ gc ∈ insertSeed grid gridSize voronoiIdx pos vmin cellSize, gc.count ≤ 8 := by
  unfold insertSeed
  refine foldl_preserves (fun g : List GridCell => ∀ gc ∈ g, gc.count ≤ 8) _ ?_ _ _ h
  intro g off hg gc hgc
  dsimp only at hgc
  split at hgc
  · rcases List.mem_or_eq_of_mem_set hgc with hmem | heq
    · exact hg _ hmem
    · rw [heq]
      exact GridCell.insert_count_le _ _ (getD_count_le _ _ hg)
  · exact hg _ hgc

/-- No voxel of a built spatial grid ever counts more than 8 seed
references. -/
theorem build_count_le (voronoiCells : List HoneycombCell) (vmin vmax : Vec3)
    (gridSize : ℕ) :
    ∀ gc ∈ (SpatialGrid.build voronoiCells vmin vmax gridSize).cells, gc.count ≤ 8 := by
  unfold SpatialGrid.build
  refine foldl_preserves (fun g : List GridCell => ∀ gc ∈ g, gc.count ≤ 8) _ ?_ _ _ ?_
  · intro g pr hg
    exact insertSeed_count_le _ _ _ _ _ _ hg
  · intro gc hgc
    rw [List.eq_of_mem_replicate hgc]
    simp [GridCell.empty]

theorem option_eq_some_getD {α : Type u} (o : Option α) (d : α) (h : o.isSome = true) :
    o = some (o.getD d) := by
  cases o with
  | none => simp at h
  | some a => simp

theorem generate_isSome (s c p : ℕ) (hp : 0 < p) :
    (HoneycombWorld.generate s c p).isSome = true := by
  have h := genCellsAux_isSome p hp c (genPhasesAux p 0 p (rngOfSeed s)).2
  rw [generate_eq]
  cases hr : genCellsAux p c (genPhasesAux p 0 p (rngOfSeed s)).2 with
  | none => rw [hr] at h; simp at h
  | some v => simp

/-!
The claims.
-/

/-- Claim C1: for every `(seed, cell_count, phase_count)`, two independent
invocations of `HoneycombWorld::generate` produce identical results, the
pseudorandom stream being derived only from the seed, with phases drawn
first (in index order) and cells after them (in index order).  In the
embedding `generate` is a pure function of its three arguments, so the two
invocations are the same term; the stream layout is witnessed by the
defining decomposition (phases consume the seeded stream first, cells
start from the state the phase draws left) and by its consequences: the
phase sequence does not depend on `cell_count`, and drawing fewer cells
yields a prefix of drawing more, each cell depending only on the seed and
its index. -/
theorem claim_C1_generate_deterministic (seed c p : ℕ) :
    HoneycombWorld.generate seed c p = HoneycombWorld.generate seed c p ∧
    HoneycombWorld.generate seed c p =
      (genCellsAux p c (genPhasesAux p 0 p (rngOfSeed seed)).2).map
        (fun cst => ⟨(genPhasesAux p 0 p (rngOfSeed seed)).1, cst.1⟩) ∧
    (∀ c' w w', HoneycombWorld.generate seed c p = some w →
      HoneycombWorld.generate seed c' p = some w' →
      w.phases = w'.phases ∧ (c ≤ c' → w.cells = w'.cells.take c)) := by
  refine ⟨rfl, generate_eq seed c p, ?_⟩
  intro c' w w' h h'
  constructor
  · rw [generate_phases _ _ _ _ h, generate_phases _ _ _ _ h']
  · intro hle
    obtain ⟨st₁, h₁⟩ := generate_cells _ _ _ _ h
    obtain ⟨st₂, h₂⟩ := generate_cells _ _ _ _ h'
    exact genCellsAux_take p c c' _ _ _ _ _ hle h₁ h₂

/-- Witness for C1 at `seed = 1`, `cell_count = 1` and `2`,
`phase_count = 2`. -/
theorem claim_C1_generate_deterministic_witness :
    ((HoneycombWorld.generate 1 1 2).getD ⟨[], []⟩).phases =
      ((HoneycombWorld.generate 1 2 2).getD ⟨[], []⟩).phases ∧
    ((HoneycombWorld.generate 1 1 2).getD ⟨[], []⟩).cells =
      ((HoneycombWorld.generate 1 2 2).getD ⟨[], []⟩).cells.take 1 := by
  have h₁ : HoneycombWorld.generate 1 1 2 =
      some ((HoneycombWorld.generate 1 1 2).getD ⟨[], []⟩) :=
    option_eq_some_getD _ _ (generate_isSome 1 1 2 (by norm_num))
  have h₂ : HoneycombWorld.generate 1 2 2 =
      some ((HoneycombWorld.generate 1 2 2).getD ⟨[], []⟩) :=
    option_eq_some_getD _ _ (generate_isSome 1 2 2 (by norm_num))
  have h := (claim_C1_generate_deterministic 1 1 2).2.2 2 _ _ h₁ h₂
  exact ⟨h.1, h.2 (by norm_num)⟩

/-- Claim C2: every world returned by `generate(seed, cell_count,
phase_count)` has exactly `phase_count` phases whose `phase_id` values are
the dense range `[0, phase_count)` in sequence order, and exactly
`cell_count` cells, each of whose `phase_index` is strictly below
`phase_count`. -/
theorem claim_C2_referential_integrity (s c p : ℕ) (w : HoneycombWorld)
    (h : HoneycombWorld.generate s c p = some w) :
    w.phases.length = p ∧
    w.phases.map VendekPhase.phase_id = List.range p ∧
    (∀ i (hi : i < w.phases.length), (w.phases.get ⟨i, hi⟩).phase_id = i) ∧
    w.cells.length = c ∧
    (∀ cell ∈ w.cells, cell.phase_index < p) := by
  have hp := generate_phases _ _ _ _ h
  obtain ⟨st', hc⟩ := generate_cells _ _ _ _ h
  have hmap : w.phases.map VendekPhase.phase_id = List.range p := by
    rw [hp, genPhasesAux_map_phase_id, List.range_eq_range']
  refine ⟨?_, hmap, ?_, ?_, ?_⟩
  · rw [hp]; exact genPhasesAux_length p p 0 _
  · intro i hi
    have h₁ : (w.phases.map VendekPhase.phase_id).get ⟨i, by simpa using hi⟩ =
        (w.phases.get ⟨i, hi⟩).phase_id := by
      simp
    rw [← h₁]
    have h₂ := List.get_of_eq hmap ⟨i, by simpa using hi⟩
    rw [h₂]
    simp
  · exact genCellsAux_length p c _ _ _ hc
  · intro cell hcell
    exact (genCellsAux_mem p c _ _ _ hc cell hcell).1

/-- Witness for C2 at `(seed, cell_count, phase_count) = (0, 1, 2)`. -/
theorem claim_C2_referential_integrity_witness :
    ((HoneycombWorld.generate 0 1 2).getD ⟨[], []⟩).phases.length = 2 ∧
    ((HoneycombWorld.generate 0 1 2).getD ⟨[], []⟩).phases.map VendekPhase.phase_id =
      List.range 2 ∧
    (∀ i (hi : i < ((HoneycombWorld.generate 0 1 2).getD ⟨[], []⟩).phases.length),
      (((HoneycombWorld.generate 0 1 2).getD ⟨[], []⟩).phases.get ⟨i, hi⟩).phase_id = i) ∧
    ((HoneycombWorld.generate 0 1 2).getD ⟨[], []⟩).cells.length = 1 ∧
    (∀ cell ∈ ((HoneycombWorld.generate 0 1 2).getD ⟨[], []⟩).cells,
      cell.phase_index < 2) :=
  claim_C2_referential_integrity 0 1 2 _
    (option_eq_some_getD _ _ (generate_isSome 0 1 2 (by norm_num)))

/-- Claim C3 (code bug): the claim asserts `generate` never fails, even for
`phase_count = 0` with `cell_count > 0`.  In the source that combination
reaches `rng.gen_range(0..0)`, an empty integer range, on which the rand
crate panics — modelled here by the `none` result at the failing input
`(seed, cell_count, phase_count) = (0, 1, 0)`.  The remaining parts of the
claim hold: `cell_count = 0` always yields an empty cell sequence without
failure, `cell_count = 0` with `phase_count = 0` yields both sequences
empty, and any `phase_count > 0` never fails. -/
theorem claim_C3_zero_phase_count :
    HoneycombWorld.generate 0 1 0 = none ∧
    HoneycombWorld.generate 0 0 0 = some ⟨[], []⟩ ∧
    (∀ s p, HoneycombWorld.generate s 0 p =
      some ⟨(genPhasesAux p 0 p (rngOfSeed s)).1, []⟩) ∧
    (∀ s c p, 0 < p → (HoneycombWorld.generate s c p).isSome = true) := by
  refine ⟨?_, rfl, ?_, ?_⟩
  · rw [generate_eq]
    simp [genCellsAux, genCell_eq, genRangeNat_eq]
  · intro s p
    rw [generate_eq]
    simp [genCellsAux]
  · intro s c p hp
    exact generate_isSome s c p hp

/-- Witness for C3's non-failing part at `(seed, cell_count, phase_count)
= (7, 3, 2)`. -/
theorem claim_C3_zero_phase_count_witness :
    (0 : ℕ) < 2 ∧ (HoneycombWorld.generate 7 3 2).isSome = true :=
  ⟨by norm_num, claim_C3_zero_phase_count.2.2.2 7 3 2 (by norm_num)⟩

/-- Claim C8: in every generated world the i-th phase's RGB components are
the source's HSV→RGB conversion applied to hue `i / phase_count` at fixed
saturation 0.7 and value 0.9; in particular the conversion at hue 0 is
`(0.9, 0.27, 0.27)` (so for `phase_count = 8` the hues are `0/8 … 7/8` in
index order, and phase 0's RGB is the conversion of `(0, 0.7, 0.9)`). -/
theorem claim_C8_phase_colors (s c p : ℕ) (w : HoneycombWorld)
    (h : HoneycombWorld.generate s c p = some w) :
    (∀ i (hi : i < w.phases.length),
      rgbOf (w.phases.get ⟨i, hi⟩) = hsv_to_rgb ((i : ℚ) / (p : ℚ)) (7/10) (9/10)) ∧
    hsv_to_rgb 0 (7/10) (9/10) = (9/10, 27/100, 27/100) := by
  constructor
  · intro i hi
    have hp := generate_phases _ _ _ _ h
    have hmap : w.phases.map rgbOf =
        (List.range' 0 p).map (fun k : ℕ => hsv_to_rgb ((k : ℚ) / (p : ℚ)) (7/10) (9/10)) := by
      rw [hp, genPhasesAux_map_rgb]
    have h₁ : (w.phases.map rgbOf).get ⟨i, by simpa using hi⟩ =
        rgbOf (w.phases.get ⟨i, hi⟩) := by
      simp
    rw [← h₁]
    have h₂ := List.get_of_eq hmap ⟨i, by simpa using hi⟩
    rw [h₂]
    have h₃ : i < (List.range' 0 p).length := by
      have := genPhasesAux_length p p 0 (rngOfSeed s)
      rw [hp] at hi
      simpa using hi.trans_le (le_of_eq this)
    simp
  · have h0 : (⌊(0 : ℚ) * 6⌋ : ℤ) = 0 := by norm_num
    simp only [hsv_to_rgb, h0]
    norm_num

/-- Witness for C8 at `(seed, cell_count, phase_count) = (0, 0, 8)`, phase
index 0. -/
theorem claim_C8_phase_colors_witness :
    rgbOf (((HoneycombWorld.generate 0 0 8).getD ⟨[], []⟩).phases.getD 0 defaultPhase) =
      hsv_to_rgb (((0 : ℕ) : ℚ) / ((8 : ℕ) : ℚ)) (7/10) (9/10) ∧
    hsv_to_rgb 0 (7/10) (9/10) = (9/10, 27/100, 27/100) := by
  have hsome : HoneycombWorld.generate 0 0 8 =
      some ((HoneycombWorld.generate 0 0 8).getD ⟨[], []⟩) :=
    option_eq_some_getD _ _ (generate_isSome 0 0 8 (by norm_num))
  have hthm := claim_C8_phase_colors 0 0 8 _ hsome
  have hlen : ((HoneycombWorld.generate 0 0 8).getD ⟨[], []⟩).phases.length = 8 := by
    rw [generate_phases _ _ _ _ hsome]
    exact genPhasesAux_length 8 8 0 _
  have h0 : (0 : ℕ) < ((HoneycombWorld.generate 0 0 8).getD ⟨[], []⟩).phases.length := by
    omega
  refine ⟨?_, hthm.2⟩
  have := hthm.1 0 h0
  rw [List.getD_eq_getElem _ _ h0]
  exact this

set_option maxRecDepth 40000 in
set_option maxHeartbeats 3200000 in
/-- Claim C9: in every built spatial grid each voxel's `count` is at most
8 — the guarded insertion drops further seed references once a voxel holds
8 — and for a dense cluster of nine coincident seeds in a one-voxel grid
the voxel's count saturates at exactly 8. -/
theorem claim_C9_grid_capacity (voronoiCells : List HoneycombCell)
    (volumeMin volumeMax : Vec3) (gridSize : ℕ) (hg : 1 ≤ gridSize) :
    (∀ gc ∈ (SpatialGrid.build voronoiCells volumeMin volumeMax gridSize).cells,
      gc.count ≤ 8) ∧
    (SpatialGrid.build nineCells VOLUME_MIN VOLUME_MAX 1).cells.map GridCell.count =
      [8] := by
  refine ⟨build_count_le voronoiCells volumeMin volumeMax gridSize, ?_⟩
  simp only [SpatialGrid.build, nineCells, VOLUME_MIN, VOLUME_MAX, insertSeed, clampToGrid,
    neighborOffsets, GridCell.empty, GridCell.insert, List.enum, List.replicate, List.foldl,
    List.flatMap, List.map, List.getD, List.set]
  norm_num

/-- Witness for C9 with an empty seed list and grid size 1. -/
theorem claim_C9_grid_capacity_witness :
    (∀ gc ∈ (SpatialGrid.build [] ⟨0, 0, 0⟩ ⟨1, 1, 1⟩ 1).cells, gc.count ≤ 8) ∧
    (SpatialGrid.build nineCells VOLUME_MIN VOLUME_MAX 1).cells.map GridCell.count =
      [8] :=
  claim_C9_grid_capacity [] ⟨0, 0, 0⟩ ⟨1, 1, 1⟩ 1 (by norm_num)

/-- Claim C10: every cell position produced by `generate` has each
coordinate drawn from `[-10, 10)` and therefore lies strictly inside the
fixed volume bounding box `[-12, 12]³` (`VOLUME_MIN`/`VOLUME_MAX`) that
`GpuState::render` writes into the Raymarch Parameters buffer on every
frame (on both the successful and the error path, since the write precedes
acquisition). -/
theorem claim_C10_positions_inside_volume :
    (∀ s c p w, HoneycombWorld.generate s c p = some w → ∀ cell ∈ w.cells,
      (-10 ≤ cell.position.x ∧ cell.position.x < 10) ∧
      (-10 ≤ cell.position.y ∧ cell.position.y < 10) ∧
      (-10 ≤ cell.position.z ∧ cell.position.z < 10) ∧
      (VOLUME_MIN.x < cell.position.x ∧ cell.position.x < VOLUME_MAX.x) ∧
      (VOLUME_MIN.y < cell.position.y ∧ cell.position.y < VOLUME_MAX.y) ∧
      (VOLUME_MIN.z < cell.position.z ∧ cell.position.z < VOLUME_MAX.z)) ∧
    (∀ st cam t acquire,
      ((GpuState.render st cam t acquire).1).raymarch_params_contents.volume_min =
        VOLUME_MIN ∧
      ((GpuState.render st cam t acquire).1).raymarch_params_contents.volume_max =
        VOLUME_MAX) := by
  constructor
  · intro s c p w h cell hcell
    obtain ⟨st', hc⟩ := generate_cells _ _ _ _ h
    obtain ⟨-, hx, hy, hz⟩ := genCellsAux_mem p c _ _ _ hc cell hcell
    refine ⟨hx, hy, hz, ?_, ?_, ?_⟩ <;>
      simp only [VOLUME_MIN, VOLUME_MAX] <;>
      constructor <;> linarith [hx.1, hx.2, hy.1, hy.2, hz.1, hz.2]
  · intro st cam t acquire
    cases acquire <;> exact ⟨rfl, rfl⟩

/-- Witness for C10 at `(seed, cell_count, phase_count) = (0, 1, 2)`, first
cell. -/
theorem claim_C10_positions_inside_volume_witness :
    ((-10 ≤ (((HoneycombWorld.generate 0 1 2).getD ⟨[], []⟩).cells.getD 0
        defaultCell).position.x ∧
      (((HoneycombWorld.generate 0 1 2).getD ⟨[], []⟩).cells.getD 0
        defaultCell).position.x < 10) ∧
     VOLUME_MIN.x < (((HoneycombWorld.generate 0 1 2).getD ⟨[], []⟩).cells.getD 0
        defaultCell).position.x) ∧
    ((GpuState.render gpuState0 cam0 0 (.ok ())).1).raymarch_params_contents.volume_min =
      VOLUME_MIN := by
  have hsome : HoneycombWorld.generate 0 1 2 =
      some ((HoneycombWorld.generate 0 1 2).getD ⟨[], []⟩) :=
    option_eq_some_getD _ _ (generate_isSome 0 1 2 (by norm_num))
  obtain ⟨st', hc⟩ := generate_cells _ _ _ _ hsome
  have hlen : ((HoneycombWorld.generate 0 1 2).getD ⟨[], []⟩).cells.length = 1 :=
    genCellsAux_length 2 1 _ _ _ hc
  have h0 : (0 : ℕ) < ((HoneycombWorld.generate 0 1 2).getD ⟨[], []⟩).cells.length := by
    omega
  have hmem : (((HoneycombWorld.generate 0 1 2).getD ⟨[], []⟩).cells.getD 0 defaultCell) ∈
      ((HoneycombWorld.generate 0 1 2).getD ⟨[], []⟩).cells := by
    rw [List.getD_eq_getElem _ _ h0]
    exact List.getElem_mem h0
  have h := (claim_C10_positions_inside_volume.1 0 1 2 _ hsome _ hmem)
  exact ⟨⟨h.1, h.2.2.2.1.1⟩, (claim_C10_positions_inside_volume.2 gpuState0 cam0 0 (.ok ())).1⟩

/-- Claim C4: the only fallible step of `GpuState::render` is surface-image
acquisition — `render` returns an error exactly when acquisition does, and
the same error — and the frame-pipeline boundary (app.rs) handles it with
exactly three outcomes: a lost surface triggers a resize with the current
dimensions (and the frame is skipped: nothing dispatched, submitted or
presented), out-of-memory terminates the application, and every other
error skips the frame, leaving the GPU state exactly as `render` left it
(no resize, no resource recreation). -/
theorem claim_C4_render_error_taxonomy :
    (∀ st cam t u, (GpuState.render st cam t (.ok u)).2.1 = none) ∧
    (∀ st cam t e, (GpuState.render st cam t (.error e)).2.1 = some e) ∧
    (∀ st cam t e, (GpuState.render st cam t (.error e)).2.2 =
      ⟨none, none, false, false⟩) ∧
    (∀ st cam t, handleRender st cam t (.error .lost) =
      (((GpuState.render st cam t (.error .lost)).1).resize st.sizeWidth st.sizeHeight,
        .reconfigured)) ∧
    (∀ st cam t, handleRender st cam t (.error .outOfMemory) =
      ((GpuState.render st cam t (.error .outOfMemory)).1, .terminated)) ∧
    (∀ st cam t, handleRender st cam t (.error .timeout) =
      ((GpuState.render st cam t (.error .timeout)).1, .skipped)) ∧
    (∀ st cam t, handleRender st cam t (.error .outdated) =
      ((GpuState.render st cam t (.error .outdated)).1, .skipped)) ∧
    (∀ st cam t, handleRender st cam t (.error .other) =
      ((GpuState.render st cam t (.error .other)).1, .skipped)) ∧
    (∀ st cam t u, handleRender st cam t (.ok u) =
      ((GpuState.render st cam t (.ok u)).1, .completed)) := by
  refine ⟨?_, ?_, ?_, ?_, ?_, ?_, ?_, ?_, ?_⟩ <;> intros <;> rfl

/-- Claim C5 counterexample: the claim says a recoverable surface error
leaves the Frame Uniforms buffer as if the frame had not started, but the
source writes both uniform buffers before acquiring the surface image, so
the write survives the abandoned frame: rendering at time 1 over a state
whose stored frame uniforms have time 0, with acquisition failing as
`Lost`, leaves the buffer changed. -/
theorem claim_C5_frame_atomicity_counterexample :
    ¬ ((GpuState.render gpuState0 cam0 1 (.error .lost)).1.frame_uniform_contents =
        gpuState0.frame_uniform_contents) := by
  intro h
  have ht := congrArg FrameUniforms.time h
  simp only [GpuState.render, mkFrameUniforms, gpuState0] at ht
  norm_num at ht

/-- Claim C5 (amended): on a recoverable surface error the frame is
abandoned before any GPU work — nothing is dispatched, submitted or
presented, and no resource other than the two per-frame uniform buffers is
touched — but both uniform buffers have already been rewritten with this
frame's values, because both buffer writes precede acquisition in
`render`. -/
theorem claim_C5_frame_abandoned_after_writes (st : GpuState) (cam : Camera) (t : ℚ)
    (e : SurfaceError) :
    GpuState.render st cam t (.error e) =
      ({ st with
          frame_uniform_contents := mkFrameUniforms st cam t
          raymarch_params_contents := mkRaymarchParams read_js_params },
        some e, ⟨none, none, false, false⟩) := rfl

/-- Claim C6: for positive surface dimensions, `render` dispatches exactly
`⌈width/8⌉ × ⌈height/8⌉ × 1` workgroups — computed as `(width+7)/8` and
`(height+7)/8` — whose 8×8 footprint always covers the image and is the
least such grid; in particular 160×90 at 1280×720 and 161×91 at
1281×721. -/
theorem claim_C6_dispatch_sizing :
    (∀ st cam t u, 0 < st.sizeWidth → 0 < st.sizeHeight →
      (GpuState.render st cam t (.ok u)).2.2.dispatch =
        some ((st.sizeWidth + 7) / 8, (st.sizeHeight + 7) / 8, 1) ∧
      st.sizeWidth ≤ ((st.sizeWidth + 7) / 8) * 8 ∧
      st.sizeHeight ≤ ((st.sizeHeight + 7) / 8) * 8 ∧
      ((st.sizeWidth + 7) / 8 - 1) * 8 < st.sizeWidth ∧
      ((st.sizeHeight + 7) / 8 - 1) * 8 < st.sizeHeight) ∧
    (GpuState.render gpuState0 cam0 0 (.ok ())).2.2.dispatch = some (160, 90, 1) ∧
    (GpuState.render { gpuState0 with sizeWidth := 1281, sizeHeight := 721 } cam0 0
        (.ok ())).2.2.dispatch = some (161, 91, 1) := by
  refine ⟨?_, rfl, rfl⟩
  intro st cam t u hw hh
  exact ⟨rfl, by omega, by omega, by omega, by omega⟩

/-- Witness for C6 at a 1281×721 surface. -/
theorem claim_C6_dispatch_sizing_witness :
    (GpuState.render { gpuState0 with sizeWidth := 1281, sizeHeight := 721 } cam0 0
        (.ok ())).2.2.dispatch =
      some ((({ gpuState0 with sizeWidth := 1281, sizeHeight := 721 } :
          GpuState).sizeWidth + 7) / 8,
        (({ gpuState0 with sizeWidth := 1281, sizeHeight := 721 } :
          GpuState).sizeHeight + 7) / 8, 1) ∧
    (1281 : ℕ) ≤ ((1281 + 7) / 8) * 8 :=
  ⟨(claim_C6_dispatch_sizing.1 { gpuState0 with sizeWidth := 1281, sizeHeight := 721 }
      cam0 0 () (by norm_num [gpuState0]) (by norm_num [gpuState0])).1,
   (claim_C6_dispatch_sizing.1 { gpuState0 with sizeWidth := 1281, sizeHeight := 721 }
      cam0 0 () (by norm_num [gpuState0]) (by norm_num [gpuState0])).2.1⟩

/-- Claim C7: `resize` is a no-op when either dimension is zero; otherwise
it reconfigures the surface at the new dimensions and replaces exactly the
size-dependent resources — the storage texture, the compute-write bind
group (against the new storage view) and the display-read bind group
(against the new sampling view and the existing sampler) — leaving every
other field (pipelines, layouts, bind group 0, sampler, buffers and their
contents) untouched, as the record update makes explicit. -/
theorem claim_C7_resize_exactly_size_dependent :
    (∀ st h, GpuState.resize st 0 h = st) ∧
    (∀ st w, GpuState.resize st w 0 = st) ∧
    (∀ st w h, 0 < w → 0 < h →
      GpuState.resize st w h =
        { st with
          sizeWidth := w
          sizeHeight := h
          config := ⟨w, h, st.config.format⟩
          storage_texture := create_storage_texture w h
          compute_bind_group_1 := ⟨create_storage_texture w h⟩
          render_bind_group := ⟨create_storage_texture w h, st.sampler⟩ }) := by
  refine ⟨?_, ?_, ?_⟩
  · intro st h; simp [GpuState.resize]
  · intro st w; simp [GpuState.resize]
  · intro st w h hw hh; simp [GpuState.resize, hw, hh]

/-- Witness for C7 resizing the 1280×720 state to 800×600. -/
theorem claim_C7_resize_exactly_size_dependent_witness :
    GpuState.resize gpuState0 800 600 =
      { gpuState0 with
        sizeWidth := 800
        sizeHeight := 600
        config := ⟨800, 600, gpuState0.config.format⟩
        storage_texture := create_storage_texture 800 600
        compute_bind_group_1 := ⟨create_storage_texture 800 600⟩
        render_bind_group := ⟨create_storage_texture 800 600, gpuState0.sampler⟩ } :=
  claim_C7_resize_exactly_size_dependent.2.2 gpuState0 800 600 (by norm_num) (by norm_num)
